import Mathlib

/-!
Verification of the twitch-clip-bot polling core.

The repository has two variants of the bot:
* `src/unnamed/part_000` — the watermark-based variant: each subscription row
  stores `last_clip_id` / `last_clip_created_at`; `getLatestClips` filters the
  upstream clip list to those strictly newer than the watermark and sorts them
  ascending by `created_at`; `pollAll` delivers each clip, records it via
  `Clip.findOrCreate`, and then saves the newest clip as the new watermark.
* `src/index.js` — the single-clip variant: `getLatestClip` picks only the
  newest clip of the 24h window and the watermark jumps directly to it.

Timestamps (`created_at`) are modelled as integers (milliseconds since the
Unix epoch, the value JavaScript compares `Date` objects by).  Network and
database effects are modelled by explicit environments: an `UpstreamResponse`
describes what the Twitch API answers, and Boolean fields describe which
operations throw.  JavaScript exceptions are modelled as explicit `errored`
flags / `Except` values that propagate exactly as far as the `try`/`catch`
blocks in the source let them.
-/

namespace TwitchClipBot

/-- Milliseconds since the Unix epoch: the value `new Date(x)` compares by. -/
abbrev Millis := Int

/-- A Twitch clip object as returned by the helix clips endpoint
(fields used by the bot: `id, title, url, thumbnail_url, created_at,
creator_id, creator_name, broadcaster_name`). -/
structure Clip where
  id : String
  title : String
  url : String
  thumbnail_url : String
  created_at : Millis
  creator_id : String
  creator_name : String
  broadcaster_name : String
  deriving DecidableEq, Repr

/-- A row of the `Subscriptions` table (sequelize model `Subscription`).
`none` models a SQL `NULL` (falsy in the JS guards). -/
structure Subscription where
  twitch_username : String
  discord_channel_id : String
  last_clip_id : Option String
  last_clip_created_at : Option Millis
  active : Bool
  deriving DecidableEq, Repr

/-- What the upstream (Twitch) answers during one subscription's processing:
the user-lookup result (`userData.data[0]?.id`) and the clip-listing result
(`clipData.data`). -/
structure UpstreamResponse where
  userId : Option String
  clips : List Clip
  deriving DecidableEq, Repr

/-- The comparator of `getLatestClips`' ascending sort:
`(a, b) => new Date(a.created_at) - new Date(b.created_at)`. -/
def clipLE (a b : Clip) : Prop :=
  a.created_at ≤ b.created_at

instance : DecidableRel clipLE := fun a b =>
  inferInstanceAs (Decidable (a.created_at ≤ b.created_at))

instance : IsTotal Clip clipLE :=
  ⟨fun a b => Int.le_total a.created_at b.created_at⟩

instance : IsTrans Clip clipLE :=
  ⟨fun _ _ _ hab hbc => le_trans hab hbc⟩

namespace Part000

/-- `getLatestClips(twitchUsername, sinceDate)` from `src/unnamed/part_000`:
resolve the handle (`if (!userId) return []`), early-return `[]` when the
clip listing is empty, keep only clips with `created_at` strictly after
`sinceDate`, and sort ascending by `created_at`.  JavaScript's
`Array.prototype.sort` is stable, which `List.insertionSort` models. -/
def getLatestClips (resp : UpstreamResponse) (sinceDate : Millis) : List Clip :=
  match resp.userId with
  | none => []
  | some _ =>
    if resp.clips.isEmpty then []
    else
      List.insertionSort clipLE
        (resp.clips.filter (fun clip => sinceDate < clip.created_at))

/-- The effectful environment for one subscription inside one `pollAll` cycle:
what the upstream answers, which clips make `Clip.findOrCreate` throw, and
whether `getLatestClips` itself throws (network failure / token failure). -/
structure SubEnv where
  upstream : UpstreamResponse
  recordClipFails : Clip → Bool
  fetchFails : Bool

/-- The inner `for (const clip of clips)` loop of `pollAll`: for each clip,
`sendClipToDiscord` is awaited first (it catches its own errors, so it never
throws), then `Clip.findOrCreate` runs; if the latter throws, the loop is
abandoned and the exception propagates.  Returns the clips that were passed
to `sendClipToDiscord` and whether an exception escaped the loop. -/
def processClips (env : SubEnv) : List Clip → List Clip × Bool
  | [] => ([], false)
  | clip :: rest =>
    if env.recordClipFails clip then ([clip], true)
    else
      let tail := processClips env rest
      (clip :: tail.1, tail.2)

/-- Result of processing one subscription in one cycle. -/
structure SubOutcome where
  sent : List Clip
  newSub : Subscription
  errored : Bool
  deriving DecidableEq, Repr

/-- One subscription's slice of `pollAll`:
`lastDate = sub.last_clip_created_at || new Date(0)`, fetch the new clips,
and when the batch is nonempty run the delivery loop and then save
`last_clip_created_at` / `last_clip_id` from `clips[clips.length - 1]`.
An exception (fetch failure or `findOrCreate` failure) leaves the
subscription row unsaved and is reported in `errored`. -/
def processSub (env : SubEnv) (sub : Subscription) : SubOutcome :=
  if env.fetchFails then { sent := [], newSub := sub, errored := true }
  else
    let lastDate := sub.last_clip_created_at.getD 0
    let clips := getLatestClips env.upstream lastDate
    match clips.getLast? with
    | none => { sent := [], newSub := sub, errored := false }
    | some newest =>
      let run := processClips env clips
      if run.2 then { sent := run.1, newSub := sub, errored := true }
      else
        { sent := run.1
          newSub := { sub with
            last_clip_id := some newest.id
            last_clip_created_at := some newest.created_at }
          errored := false }

/-- The `for (const sub of subs)` loop of `pollAll` (the body of its single
`try` block).  Inactive subscriptions are not returned by
`Subscription.findAll({ where: { active: true } })`, hence are untouched.
An exception thrown while processing one subscription abandons the whole
loop: the remaining subscriptions keep their old state and receive nothing.
The Boolean records whether an exception reached `pollAll`'s `catch`. -/
def runSubs (env : Subscription → SubEnv) :
    List Subscription → List (Subscription × List Clip) × Bool
  | [] => ([], false)
  | sub :: rest =>
    if sub.active then
      let o := processSub (env sub) sub
      if o.errored then
        ((o.newSub, o.sent) :: rest.map (fun r => (r, [])), true)
      else
        let tail := runSubs env rest
        ((o.newSub, o.sent) :: tail.1, tail.2)
    else
      let tail := runSubs env rest
      ((sub, []) :: tail.1, tail.2)

/-- `pollAll()`: the loop wrapped in `try { ... } catch (err) { console.error }`.
The `catch` swallows any exception, so `pollAll` always returns normally;
its value pairs every subscription with the clips passed to
`sendClipToDiscord` for it in this cycle. -/
def pollAll (env : Subscription → SubEnv) (subs : List Subscription) :
    List (Subscription × List Clip) :=
  (runSubs env subs).1

/-- `startPolling()`: run `pollAll` (which cannot throw), then unconditionally
re-arm the timer.  One list entry per cycle's environment. -/
def runCycles : List (Subscription → SubEnv) → List Subscription → List Subscription
  | [], subs => subs
  | env :: rest, subs => runCycles rest ((pollAll env subs).map Prod.fst)

/-! ### Token handling (`getAccessToken` / `fetchWithAuthRetry`) -/

/-- An HTTP response as far as the bot inspects it: a status code and an
abstract body. -/
structure HttpResponse where
  status : Nat
  body : String
  deriving DecidableEq, Repr

/-- The mutable module-level state the token code touches: the bare
`let accessToken = ''` variable, plus instrumentation counters — how many
token-endpoint calls (refreshes) and how many authorized fetches have been
performed so far. -/
structure FetchState where
  accessToken : String
  refreshCount : Nat
  fetchCount : Nat
  deriving DecidableEq, Repr

/-- The upstream's behaviour: `respAt n` is the response to the `n`-th
authorized fetch performed so far, `tokenAt n` is the outcome of the `n`-th
token-endpoint call (`none` models `getAccessToken` throwing: non-ok status
or a response without `access_token`). -/
structure Upstream where
  respAt : Nat → HttpResponse
  tokenAt : Nat → Option String

/-- One `await fetch(url, {headers: {Authorization: Bearer accessToken}})`. -/
def fetchOnce (up : Upstream) (st : FetchState) : HttpResponse × FetchState :=
  (up.respAt st.fetchCount, { st with fetchCount := st.fetchCount + 1 })

/-- `getAccessToken()`: call the token endpoint and overwrite the shared
`accessToken` variable; throws when the endpoint fails. -/
def getAccessToken (up : Upstream) (st : FetchState) : Except Unit FetchState :=
  match up.tokenAt st.refreshCount with
  | none => Except.error ()
  | some tok =>
    Except.ok { st with accessToken := tok, refreshCount := st.refreshCount + 1 }

/-- `fetchWithAuthRetry(url, options, retry)`: perform the fetch; on a 401
with `retry` still true, refresh the token and recurse with `retry = false`;
otherwise return the response as is (a 401 with `retry = false` is returned,
not retried). -/
def fetchWithAuthRetry (up : Upstream) : Bool → FetchState → Except Unit (HttpResponse × FetchState)
  | false, st => Except.ok (fetchOnce up st)
  | true, st =>
    let first := fetchOnce up st
    if first.1.status = 401 then
      match getAccessToken up first.2 with
      | Except.error e => Except.error e
      | Except.ok st2 => fetchWithAuthRetry up false st2
    else Except.ok first
  termination_by retry _ => retry.toNat

/-- The continuation of `fetchWithAuthRetry` once the first response has been
observed (everything after the first `await fetch` returns): the 401 check,
the refresh, and the single retried fetch.  Used to interleave two callers;
`fetchWithAuthRetry_true_eq` ties it to `fetchWithAuthRetry`. -/
def handle401 (up : Upstream) (res : HttpResponse) (st : FetchState) :
    Except Unit (HttpResponse × FetchState) :=
  if res.status = 401 then
    match getAccessToken up st with
    | Except.error e => Except.error e
    | Except.ok st2 => Except.ok (fetchOnce up st2)
  else Except.ok (res, st)

/-- Two concurrent `fetchWithAuthRetry` calls, interleaved at the `await`
boundaries the event loop really offers: caller A performs its fetch, caller
B performs its fetch, then A runs its 401 handling (refresh + retry), then B
runs its 401 handling.  Both callers sent the same stale `accessToken`,
so both responses belong to the same credential-rejection event. -/
def interleavedDoubleReject (up : Upstream) (st0 : FetchState) : Except Unit FetchState :=
  let a := fetchOnce up st0
  let b := fetchOnce up a.2
  match handle401 up a.1 b.2 with
  | Except.error e => Except.error e
  | Except.ok ra =>
    match handle401 up b.1 ra.2 with
    | Except.error e => Except.error e
    | Except.ok rb => Except.ok rb.2

end Part000

namespace IndexJs

/-- The fold step of `src/index.js`'s
`clipData.data.sort((a, b) => new Date(b.created_at) - new Date(a.created_at))[0]`:
a stable descending sort followed by `[0]` selects the first element of the
input attaining the maximal `created_at`, which is what this fold computes. -/
def pickNewer (best c : Clip) : Clip :=
  if best.created_at < c.created_at then c else best

/-- `getLatestClip(twitchUsername)` from `src/index.js`: `null` when the
handle does not resolve or the 24h window is empty, otherwise the newest
clip of the window. -/
def getLatestClip (resp : UpstreamResponse) : Option Clip :=
  match resp.userId with
  | none => none
  | some _ =>
    match resp.clips with
    | [] => none
    | c :: cs => some (cs.foldl pickNewer c)

/-- The delivery guard of `src/index.js`'s `pollAll`:
`clip.id !== sub.last_clip_id && (!sub.last_clip_created_at ||
new Date(clip.created_at) > sub.last_clip_created_at)` — a `Date` object is
always truthy, so only a NULL watermark makes the first disjunct fire. -/
def shouldSend (sub : Subscription) (clip : Clip) : Bool :=
  sub.last_clip_id != some clip.id
    && sub.last_clip_created_at.all (fun w => decide (w < clip.created_at))

/-- One subscription's slice of `src/index.js`'s `pollAll`: deliver the newest
clip only when its id differs from `last_clip_id` and either
`last_clip_created_at` is unset (falsy) or the clip is strictly newer; on
delivery both watermark fields jump directly to that clip. -/
def pollOne (resp : UpstreamResponse) (sub : Subscription) :
    Option Clip × Subscription :=
  match getLatestClip resp with
  | none => (none, sub)
  | some clip =>
    if shouldSend sub clip then
      (some clip,
        { sub with
          last_clip_id := some clip.id
          last_clip_created_at := some clip.created_at })
    else (none, sub)

end IndexJs

/-! ### Lemmas about the part_000 fetcher and poll loop -/

namespace Part000

theorem mem_getLatestClips {resp : UpstreamResponse} {since : Millis} {c : Clip}
    (h : c ∈ getLatestClips resp since) :
    c ∈ resp.clips ∧ since < c.created_at := by
  unfold getLatestClips at h
  rcases hu : resp.userId with _ | u
  · rw [hu] at h
    exact absurd h (List.not_mem_nil c)
  · rw [hu] at h
    by_cases he : resp.clips.isEmpty
    · simp [he] at h
    · simp only [he, if_false, Bool.false_eq_true, List.mem_insertionSort,
        List.mem_filter, decide_eq_true_eq] at h
      exact h

theorem getLatestClips_sorted (resp : UpstreamResponse) (since : Millis) :
    List.Sorted clipLE (getLatestClips resp since) := by
  unfold getLatestClips
  rcases resp.userId with _ | u
  · exact List.sorted_nil
  · by_cases he : resp.clips.isEmpty
    · simp [he]
    · simp only [he, if_false, Bool.false_eq_true]
      exact List.sorted_insertionSort clipLE _

theorem getLatestClips_perm {resp : UpstreamResponse} {u : String}
    (hu : resp.userId = some u) (since : Millis) :
    (getLatestClips resp since).Perm
      (resp.clips.filter (fun c => since < c.created_at)) := by
  unfold getLatestClips
  rw [hu]
  by_cases he : resp.clips.isEmpty
  · rw [List.isEmpty_iff] at he
    simp [he]
  · simp only [he, if_false, Bool.false_eq_true]
    exact List.perm_insertionSort clipLE _

theorem processClips_sent_mem {env : SubEnv} {l : List Clip} {c : Clip}
    (h : c ∈ (processClips env l).1) : c ∈ l := by
  induction l with
  | nil => simp [processClips] at h
  | cons a rest ih =>
    by_cases hf : env.recordClipFails a
    · simp [processClips, hf] at h
      simp [h]
    · simp only [processClips, hf, Bool.false_eq_true, if_false, List.mem_cons] at h
      rcases h with h | h
      · simp [h]
      · exact List.mem_cons_of_mem a (ih h)

theorem processClips_fail_of_mem {env : SubEnv} {l : List Clip} {c : Clip}
    (hc : c ∈ l) (hf : env.recordClipFails c = true) :
    (processClips env l).2 = true := by
  induction l with
  | nil => exact absurd hc (List.not_mem_nil c)
  | cons a rest ih =>
    by_cases ha : env.recordClipFails a
    · simp [processClips, ha]
    · rcases List.mem_cons.mp hc with h | h
      · subst h
        exact absurd hf ha
      · simp [processClips, ha, ih h]

theorem processClips_ok_sent {env : SubEnv} {l : List Clip}
    (h : (processClips env l).2 = false) : (processClips env l).1 = l := by
  induction l with
  | nil => simp [processClips]
  | cons a rest ih =>
    by_cases ha : env.recordClipFails a
    · simp [processClips, ha] at h
    · simp only [processClips, ha, Bool.false_eq_true, if_false] at h ⊢
      rw [ih h]

theorem processClips_sorted {env : SubEnv} {l : List Clip}
    (h : List.Sorted clipLE l) : List.Sorted clipLE (processClips env l).1 := by
  induction l with
  | nil => simp [processClips]
  | cons a rest ih =>
    rcases List.pairwise_cons.mp h with ⟨ha, hrest⟩
    by_cases hf : env.recordClipFails a
    · simp [processClips, hf]
    · simp only [processClips, hf, Bool.false_eq_true, if_false]
      exact List.pairwise_cons.mpr
        ⟨fun c hc => ha c (processClips_sent_mem hc), ih hrest⟩

theorem processSub_errored_newSub {env : SubEnv} {sub : Subscription}
    (h : (processSub env sub).errored = true) :
    (processSub env sub).newSub = sub := by
  unfold processSub at h ⊢
  by_cases hf : env.fetchFails
  · simp [hf]
  · simp only [hf, Bool.false_eq_true, if_false] at h ⊢
    rcases hg : (getLatestClips env.upstream (sub.last_clip_created_at.getD 0)).getLast?
      with _ | newest
    · simp [hg]
    · simp only [hg] at h ⊢
      by_cases hr :
          (processClips env (getLatestClips env.upstream (sub.last_clip_created_at.getD 0))).2
      · simp [hr]
      · simp [hr] at h

theorem processSub_watermark_mono (env : SubEnv) (sub : Subscription) :
    sub.last_clip_created_at.getD 0 ≤
      (processSub env sub).newSub.last_clip_created_at.getD 0 := by
  unfold processSub
  by_cases hf : env.fetchFails
  · simp [hf]
  · simp only [hf, Bool.false_eq_true, if_false]
    rcases hg : (getLatestClips env.upstream (sub.last_clip_created_at.getD 0)).getLast?
      with _ | newest
    · simp [hg]
    · have hmem := List.mem_of_getLast?_eq_some hg
      have hlt := (mem_getLatestClips hmem).2
      by_cases hr :
          (processClips env (getLatestClips env.upstream (sub.last_clip_created_at.getD 0))).2
      · simp [hr]
      · simp only [hr, Bool.false_eq_true, if_false]
        exact le_of_lt hlt

theorem processSub_sent_gt {env : SubEnv} {sub : Subscription} {c : Clip}
    (h : c ∈ (processSub env sub).sent) :
    sub.last_clip_created_at.getD 0 < c.created_at := by
  unfold processSub at h
  by_cases hf : env.fetchFails
  · simp [hf] at h
  · simp only [hf, Bool.false_eq_true, if_false] at h
    rcases hg : (getLatestClips env.upstream (sub.last_clip_created_at.getD 0)).getLast?
      with _ | newest
    · rw [hg] at h
      simp at h
    · rw [hg] at h
      by_cases hr :
          (processClips env (getLatestClips env.upstream (sub.last_clip_created_at.getD 0))).2
      · simp only [hr, if_true] at h
        exact (mem_getLatestClips (processClips_sent_mem h)).2
      · simp only [hr, Bool.false_eq_true, if_false] at h
        exact (mem_getLatestClips (processClips_sent_mem h)).2

/-- Generic shape of per-subscription facts about one `pollAll` cycle:
any relation that holds between a subscription and its processed outcome,
and also between a subscription and the untouched `(sub, [])` outcome,
holds pairwise between the input list and `pollAll`'s output. -/
theorem runSubs_forall₂ (env : Subscription → SubEnv)
    (R : Subscription → Subscription × List Clip → Prop)
    (hproc : ∀ s, R s ((processSub (env s) s).newSub, (processSub (env s) s).sent))
    (hskip : ∀ s, R s (s, [])) :
    ∀ subs, List.Forall₂ R subs (pollAll env subs) := by
  intro subs
  induction subs with
  | nil => exact List.Forall₂.nil
  | cons s rest ih =>
    unfold pollAll runSubs
    by_cases ha : s.active
    · simp only [ha, if_true]
      by_cases he : (processSub (env s) s).errored
      · simp only [he, if_true]
        refine List.Forall₂.cons (hproc s) ?_
        exact List.forall₂_map_right_iff.mpr
          (List.forall₂_same.mpr (fun r _ => hskip r))
      · simp only [he, Bool.false_eq_true, if_false]
        exact List.Forall₂.cons (hproc s) ih
    · simp only [ha, Bool.false_eq_true, if_false]
      exact List.Forall₂.cons (hskip s) ih

/-- C1: in every poll cycle of `src/unnamed/part_000`, each subscription is
paired with the clips passed to `sendClipToDiscord` for it, and every such
clip has `created_at` strictly greater than that subscription's watermark
(`last_clip_created_at`, epoch when unset) at the start of the cycle; a clip
at or below the watermark is never dispatched. -/
theorem delivered_strictly_after_watermark
    (env : Subscription → SubEnv) (subs : List Subscription) :
    List.Forall₂
      (fun sub p => ∀ c ∈ p.2, sub.last_clip_created_at.getD 0 < c.created_at)
      subs (pollAll env subs) := by
  refine runSubs_forall₂ env _ (fun s => ?_) (fun s => ?_) subs
  · intro c hc
    exact processSub_sent_gt hc
  · intro c hc
    exact absurd hc (List.not_mem_nil c)

/-- C2: for every subscription, the watermark timestamp after one `pollAll`
cycle is greater than or equal to its value before the cycle (reading an
unset watermark as the epoch, as the code's `|| new Date(0)` does), whatever
the upstream responses and failure pattern of the cycle are. -/
theorem watermark_monotone
    (env : Subscription → SubEnv) (subs : List Subscription) :
    List.Forall₂
      (fun sub p =>
        sub.last_clip_created_at.getD 0 ≤ p.1.last_clip_created_at.getD 0)
      subs (pollAll env subs) := by
  refine runSubs_forall₂ env
    (fun sub p => sub.last_clip_created_at.getD 0 ≤ p.1.last_clip_created_at.getD 0)
    (fun s => processSub_watermark_mono (env s) s)
    (fun s => le_refl _) subs

end Part000

/-- A clip with the given id and creation time and empty cosmetic fields
(titles, urls and names play no role in the polling logic). -/
def mkClip (i : String) (t : Millis) : Clip :=
  { id := i, title := "", url := "", thumbnail_url := "", created_at := t,
    creator_id := "", creator_name := "", broadcaster_name := "" }

/-- A subscription that has never delivered: both watermark fields NULL. -/
def freshSub (u chan : String) : Subscription :=
  { twitch_username := u, discord_channel_id := chan, last_clip_id := none,
    last_clip_created_at := none, active := true }

namespace Part000

/-- An environment in which nothing fails: the given upstream answers and
every database insert succeeds. -/
def plainEnv (resp : UpstreamResponse) : SubEnv :=
  { upstream := resp, recordClipFails := fun _ => false, fetchFails := false }

/-- C3: within one cycle's batch for one subscription the clips passed to
`sendClipToDiscord` are in ascending `created_at` order, and concretely, with
an epoch watermark and upstream clips `[c1@t1, c3@t3, c2@t2]` (t1 < t2 < t3),
the delivery order is `c1, c2, c3` and the saved watermark becomes
`(c3, t3)` — the id and timestamp of the last clip processed in that order. -/
theorem batch_order_and_watermark :
    (∀ (env : SubEnv) (sub : Subscription),
      List.Sorted clipLE (processSub env sub).sent) ∧
    (∀ t1 t2 t3 : Millis, 0 < t1 → t1 < t2 → t2 < t3 →
      processSub
        (plainEnv { userId := some "uid",
                    clips := [mkClip "c1" t1, mkClip "c3" t3, mkClip "c2" t2] })
        (freshSub "streamer" "chan") =
      { sent := [mkClip "c1" t1, mkClip "c2" t2, mkClip "c3" t3],
        newSub := { freshSub "streamer" "chan" with
          last_clip_id := some "c3", last_clip_created_at := some t3 },
        errored := false }) := by
  constructor
  · intro env sub
    unfold processSub
    by_cases hf : env.fetchFails
    · simp [hf]
    · simp only [hf, Bool.false_eq_true, if_false]
      rcases hg : (getLatestClips env.upstream (sub.last_clip_created_at.getD 0)).getLast?
        with _ | newest
      · simp [hg]
      · have hs := @processClips_sorted env
          (getLatestClips env.upstream (sub.last_clip_created_at.getD 0))
          (getLatestClips_sorted env.upstream (sub.last_clip_created_at.getD 0))
        by_cases hr :
            (processClips env
              (getLatestClips env.upstream (sub.last_clip_created_at.getD 0))).2
        · simpa [hg, hr] using hs
        · simpa [hg, hr] using hs
  · intro t1 t2 t3 h1 h12 h23
    have h02 : (0 : Millis) < t2 := lt_trans h1 h12
    have h03 : (0 : Millis) < t3 := lt_trans h02 h23
    have hn32 : ¬ t3 ≤ t2 := not_le.mpr h23
    have h12le : t1 ≤ t2 := le_of_lt h12
    have hfetch :
        getLatestClips
          { userId := some "uid",
            clips := [mkClip "c1" t1, mkClip "c3" t3, mkClip "c2" t2] } 0 =
        [mkClip "c1" t1, mkClip "c2" t2, mkClip "c3" t3] := by
      unfold getLatestClips
      simp [mkClip, h1, h02, h03, clipLE, hn32, h12le]
    simp only [processSub, plainEnv, freshSub, Option.getD_none]
    rw [hfetch]
    simp [processClips, List.getLast?, List.getLast, freshSub, mkClip]

/-- C3 witness at `t1, t2, t3 = 1, 2, 3`. -/
theorem batch_order_and_watermark_witness :
    processSub
      (plainEnv { userId := some "uid",
                  clips := [mkClip "c1" 1, mkClip "c3" 3, mkClip "c2" 2] })
      (freshSub "streamer" "chan") =
    { sent := [mkClip "c1" 1, mkClip "c2" 2, mkClip "c3" 3],
      newSub := { freshSub "streamer" "chan" with
        last_clip_id := some "c3", last_clip_created_at := some 3 },
      errored := false } :=
  batch_order_and_watermark.2 1 2 3 (by decide) (by decide) (by decide)

/-- An upstream answer with two clips sharing one `created_at`. -/
def dupResp : UpstreamResponse :=
  { userId := some "u", clips := [mkClip "a" 5, mkClip "b" 5] }

/-- C4 counterexample: with duplicate timestamps the fetcher's output is NOT
strictly ascending by `created_at` — on the upstream list
`[a@5, b@5]` with `since = 0` the output keeps both clips, so adjacent
entries share a timestamp. -/
theorem fetcher_not_strictly_ascending :
    ¬ List.Pairwise (fun a b : Clip => a.created_at < b.created_at)
        (getLatestClips dupResp 0) := by
  decide

/-- C4 (amended): when the broadcaster resolves, the fetcher's output is
ascending (non-decreasing — ties between equal timestamps are kept) by
`created_at`, is a permutation of exactly the input candidates whose
`created_at` is strictly greater than `since`, and is the empty list — never
an error — when nothing qualifies. -/
theorem fetcher_sorted_filter (resp : UpstreamResponse) (since : Millis)
    (u : String) (hu : resp.userId = some u) :
    List.Sorted clipLE (getLatestClips resp since) ∧
    (getLatestClips resp since).Perm
      (resp.clips.filter (fun c => since < c.created_at)) ∧
    ((∀ c ∈ resp.clips, ¬ since < c.created_at) →
      getLatestClips resp since = []) := by
  refine ⟨getLatestClips_sorted resp since, getLatestClips_perm hu since, ?_⟩
  intro hnone
  have hperm := getLatestClips_perm hu since
  have hfil : resp.clips.filter (fun c => since < c.created_at) = [] := by
    rw [List.filter_eq_nil_iff]
    intro a ha
    simpa using hnone a ha
  rwa [hfil, List.perm_nil] at hperm

/-- C4 (amended) witness at the duplicate-timestamp upstream answer: sorted
and permutation facts at `since = 0`, and the empty output at `since = 10`,
where no candidate qualifies. -/
theorem fetcher_sorted_filter_witness :
    List.Sorted clipLE (getLatestClips dupResp 0) ∧
    (getLatestClips dupResp 0).Perm
      (dupResp.clips.filter (fun c => (0 : Millis) < c.created_at)) ∧
    getLatestClips dupResp 10 = [] :=
  ⟨(fetcher_sorted_filter dupResp 0 "u" rfl).1,
   (fetcher_sorted_filter dupResp 0 "u" rfl).2.1,
   (fetcher_sorted_filter dupResp 10 "u" rfl).2.2 (by decide)⟩

/-- C5: when the broadcaster handle resolves to no upstream user
(`userData.data[0]?.id` is undefined) and the fetch itself does not throw,
the cycle's slice for that subscription delivers nothing, raises no error,
and leaves the subscription row — both watermark fields included —
unchanged. -/
theorem unknown_broadcaster_noop (env : SubEnv) (sub : Subscription)
    (hf : env.fetchFails = false) (hu : env.upstream.userId = none) :
    processSub env sub = { sent := [], newSub := sub, errored := false } := by
  have hcl : getLatestClips env.upstream (sub.last_clip_created_at.getD 0) = [] := by
    unfold getLatestClips
    rw [hu]
  unfold processSub
  simp [hf, hcl]

/-- The Scenario B environment: lookup for `ghostuser` returns no user. -/
def ghostEnv : SubEnv :=
  { upstream := { userId := none, clips := [mkClip "x" 5] },
    recordClipFails := fun _ => false, fetchFails := false }

/-- C5 witness on the `ghostuser` scenario. -/
theorem unknown_broadcaster_noop_witness :
    processSub ghostEnv (freshSub "ghostuser" "chan") =
      { sent := [], newSub := freshSub "ghostuser" "chan", errored := false } :=
  unknown_broadcaster_noop ghostEnv (freshSub "ghostuser" "chan") rfl rfl

/-- The two clips of the C6 scenario. -/
def clipA : Clip := mkClip "cA" 1

/-- See `clipA`. -/
def clipB : Clip := mkClip "cB" 2

/-- Environment for the C6 counterexample: two new clips; `Clip.findOrCreate`
throws on the first one, everything else succeeds. -/
def envC6 : SubEnv :=
  { upstream := { userId := some "u", clips := [clipA, clipB] },
    recordClipFails := fun c => c.id == "cA", fetchFails := false }

/-- C6 counterexample: with batch `[cA@1, cB@2]` and the clip-history insert
failing on `cA`, the watermark is NOT advanced (the row keeps its NULL
watermark) and `cB` is NOT attempted — only `cA` was passed to
`sendClipToDiscord` before the exception aborted the loop.  The last two
conjuncts show the same input with a succeeding insert does advance the
watermark to `cB` and does attempt both clips, so the insert failure is what
prevented both. -/
theorem recordClip_failure_blocks :
    (processSub envC6 (freshSub "s" "chan")).sent = [clipA] ∧
    (processSub envC6 (freshSub "s" "chan")).newSub = freshSub "s" "chan" ∧
    (processSub envC6 (freshSub "s" "chan")).errored = true ∧
    (processSub (plainEnv envC6.upstream) (freshSub "s" "chan")).newSub.last_clip_created_at
      = some 2 ∧
    (processSub (plainEnv envC6.upstream) (freshSub "s" "chan")).sent = [clipA, clipB] := by
  decide

/-- C6 (amended): a failure of the idempotent clip-history insert
(`Clip.findOrCreate`) on any clip of the batch aborts that subscription's
slice of the cycle: the exception propagates to `pollAll`'s catch, the
subscription row is left exactly as it was (no watermark advance), and the
clips after the failing one are not attempted. -/
theorem recordClip_failure_aborts (env : SubEnv) (sub : Subscription) (c : Clip)
    (hf : env.fetchFails = false)
    (hc : c ∈ getLatestClips env.upstream (sub.last_clip_created_at.getD 0))
    (hr : env.recordClipFails c = true) :
    (processSub env sub).errored = true ∧ (processSub env sub).newSub = sub := by
  unfold processSub
  rcases hcl : getLatestClips env.upstream (sub.last_clip_created_at.getD 0)
    with _ | ⟨a, as⟩
  · rw [hcl] at hc
    exact absurd hc (List.not_mem_nil c)
  · rw [hcl] at hc
    have hfail : (processClips env (a :: as)).2 = true :=
      processClips_fail_of_mem hc hr
    simp [hf, hcl, List.getLast?, hfail]

/-- C6 (amended) witness on the two-clip scenario with the insert failing on
the first clip. -/
theorem recordClip_failure_aborts_witness :
    (processSub envC6 (freshSub "s" "chan")).errored = true ∧
    (processSub envC6 (freshSub "s" "chan")).newSub = freshSub "s" "chan" :=
  recordClip_failure_aborts envC6 (freshSub "s" "chan") clipA rfl
    (by decide) (by decide)

/-- First subscription of the C7 scenario (its fetch throws). -/
def subX : Subscription := freshSub "x" "chX"

/-- Second subscription of the C7 scenario (it has a deliverable clip). -/
def subY : Subscription := freshSub "y" "chY"

/-- The clip subscription `subY` would receive. -/
def clipY : Clip := mkClip "cY" 5

/-- Environment for the C7 counterexample: processing `subX` throws (network
failure in `getLatestClips`); `subY`'s upstream has one new clip. -/
def envC7 (s : Subscription) : SubEnv :=
  if s.twitch_username == "x" then
    { upstream := { userId := some "ux", clips := [] },
      recordClipFails := fun _ => false, fetchFails := true }
  else
    { upstream := { userId := some "uy", clips := [clipY] },
      recordClipFails := fun _ => false, fetchFails := false }

/-- C7 counterexample: the error thrown while processing `subX` stops the
processing of the remaining subscription `subY` of that cycle — `subY`
receives nothing — even though processing `subY` alone would have delivered
`cY`.  The single `try`/`catch` of `pollAll` wraps the whole loop, not one
subscription. -/
theorem subscription_error_stops_rest :
    pollAll envC7 [subX, subY] = [(subX, []), (subY, [])] ∧
    (processSub (envC7 subY) subY).sent = [clipY] := by
  decide

/-- C7 (amended): an error thrown while processing one subscription is caught
(and logged) at the cycle boundary, so it never escapes `pollAll` and the
`startPolling` loop always schedules the following cycles; but within the
cycle it stops the processing of the remaining subscriptions: they are left
untouched and receive no clips that cycle. -/
theorem cycle_error_contained (env : Subscription → SubEnv)
    (s : Subscription) (rest : List Subscription)
    (ha : s.active = true) (he : (processSub (env s) s).errored = true) :
    pollAll env (s :: rest) =
      (s, (processSub (env s) s).sent) :: rest.map (fun r => (r, [])) ∧
    (pollAll env (s :: rest)).map Prod.fst = s :: rest ∧
    (∀ es : List (Subscription → SubEnv),
      runCycles (env :: es) (s :: rest) =
        runCycles es ((pollAll env (s :: rest)).map Prod.fst)) := by
  have hmain : pollAll env (s :: rest) =
      (s, (processSub (env s) s).sent) :: rest.map (fun r => (r, [])) := by
    unfold pollAll runSubs
    simp [ha, he, processSub_errored_newSub he, pollAll]
  refine ⟨hmain, ?_, fun es => rfl⟩
  rw [hmain]
  simp only [List.map_cons, List.map_map]
  rw [show (Prod.fst ∘ fun r : Subscription => (r, ([] : List Clip))) = id from rfl,
    List.map_id]

/-- C7 (amended) witness on the two-subscription scenario. -/
theorem cycle_error_contained_witness :
    pollAll envC7 [subX, subY] =
      (subX, (processSub (envC7 subX) subX).sent) :: [subY].map (fun r => (r, [])) ∧
    (pollAll envC7 [subX, subY]).map Prod.fst = [subX, subY] :=
  ⟨(cycle_error_contained envC7 subX [subY] rfl (by decide)).1,
   (cycle_error_contained envC7 subX [subY] rfl (by decide)).2.1⟩

/-- `fetchWithAuthRetry` with `retry = true` is: perform the fetch, then run
the 401-handling continuation `handle401` on what came back.  This ties the
interleaving model to the function it interleaves. -/
theorem fetchWithAuthRetry_true_eq (up : Upstream) (st : FetchState) :
    fetchWithAuthRetry up true st =
      handle401 up (fetchOnce up st).1 (fetchOnce up st).2 := by
  by_cases h : (fetchOnce up st).1.status = 401
  · simp only [fetchWithAuthRetry, handle401, h, if_true]
  · simp only [fetchWithAuthRetry, handle401, h, if_false]

/-- C8: the 401 retry discipline of `fetchWithAuthRetry`.  First conjunct: a
call whose first response is not a 401 performs exactly one fetch and returns
that response unchanged — the "never failed" baseline.  Second conjunct: when
the first response is a 401-equivalent rejection and the token endpoint
serves a fresh token, the credential is refreshed exactly once
(`refreshCount + 1`) and the call retried exactly once (`fetchCount + 2`),
and the call's result is the second response as-is: a second rejection is
returned without any further refresh or retry — that call has definitively
failed — while a succeeding retried call returns exactly the response shape
of the baseline, indistinguishable from a call that never failed. -/
theorem auth_retry_once :
    (∀ (up : Upstream) (st : FetchState),
      (up.respAt st.fetchCount).status ≠ 401 →
      fetchWithAuthRetry up true st =
        Except.ok (up.respAt st.fetchCount,
          { st with fetchCount := st.fetchCount + 1 })) ∧
    (∀ (up : Upstream) (st : FetchState) (tok : String),
      (up.respAt st.fetchCount).status = 401 →
      up.tokenAt st.refreshCount = some tok →
      fetchWithAuthRetry up true st =
        Except.ok (up.respAt (st.fetchCount + 1),
          { accessToken := tok, refreshCount := st.refreshCount + 1,
            fetchCount := st.fetchCount + 2 })) := by
  constructor
  · intro up st h
    simp only [fetchWithAuthRetry, fetchOnce, h, if_false]
  · intro up st tok h401 htok
    simp only [fetchWithAuthRetry, fetchOnce, getAccessToken, h401, htok, if_true]

/-- The upstream of the C8 witness: both authorized fetches are rejected, the
token endpoint works — exercising the path where even the retried call is
rejected and that rejection is final. -/
def upC8 : Upstream :=
  { respAt := fun n =>
      if n == 0 then { status := 401, body := "Unauthorized" }
      else { status := 401, body := "Unauthorized again" },
    tokenAt := fun _ => some "fresh-token" }

/-- C8 witness: from a stale token, the call refreshes once, retries once,
and hands the second rejection back with no third fetch and no second
refresh. -/
theorem auth_retry_once_witness :
    fetchWithAuthRetry upC8 true
        { accessToken := "stale", refreshCount := 0, fetchCount := 0 } =
      Except.ok ({ status := 401, body := "Unauthorized again" },
        { accessToken := "fresh-token", refreshCount := 1, fetchCount := 2 }) :=
  auth_retry_once.2 upC8
    { accessToken := "stale", refreshCount := 0, fetchCount := 0 }
    "fresh-token" rfl rfl

/-- C9 (amended): there is no single-flight guard around `getAccessToken`:
when two concurrent callers both observe the rejection of the same stale
credential before either refreshes — an interleaving the `await` boundaries
permit — each caller performs its own refresh, so one credential-rejection
event causes two token-endpoint calls (`refreshCount + 2`), and four fetches
are performed in total. -/
theorem no_single_flight_refresh (up : Upstream) (st : FetchState)
    (tokA tokB : String)
    (h1 : (up.respAt st.fetchCount).status = 401)
    (h2 : (up.respAt (st.fetchCount + 1)).status = 401)
    (hA : up.tokenAt st.refreshCount = some tokA)
    (hB : up.tokenAt (st.refreshCount + 1) = some tokB) :
    interleavedDoubleReject up st =
      Except.ok { accessToken := tokB, refreshCount := st.refreshCount + 2,
                  fetchCount := st.fetchCount + 4 } := by
  simp only [interleavedDoubleReject, handle401, getAccessToken, fetchOnce,
    h1, h2, hA, hB, if_true]

/-- The upstream of the C9 counterexample: the first two fetches (both made
with the stale token) are rejected, later fetches succeed, and the token
endpoint serves `tokA` then `tokB`. -/
def upC9 : Upstream :=
  { respAt := fun n =>
      if n < 2 then { status := 401, body := "Unauthorized" }
      else { status := 200, body := "ok" },
    tokenAt := fun n => some (if n == 0 then "tokA" else "tokB") }

/-- The shared state before the C9 scenario: a stale token, no refreshes or
fetches performed yet. -/
def stC9 : FetchState :=
  { accessToken := "stale", refreshCount := 0, fetchCount := 0 }

/-- C9 counterexample: two concurrent `fetchWithAuthRetry` callers both issue
their first fetch with the same stale token and observe the same
credential-rejection event; because the token lives in a bare module-level
variable with no in-flight-refresh sharing, each caller refreshes on its own:
the token endpoint is called twice (`refreshCount = 2`) for one rejection,
not exactly once as claimed. -/
theorem concurrent_double_refresh :
    interleavedDoubleReject upC9 stC9 =
      Except.ok { accessToken := "tokB", refreshCount := 2, fetchCount := 4 } := by
  rfl

/-- The upstream of the C9 (amended) witness: mid-run counters, both fetches
of the rejection event rejected. -/
def upC9W : Upstream :=
  { respAt := fun n =>
      if n < 12 then { status := 401, body := "Unauthorized" }
      else { status := 200, body := "ok" },
    tokenAt := fun n => some (if n == 3 then "tokA" else "tokB") }

/-- C9 (amended) witness on mid-run counters: refreshes go from 3 to 5 — two
refreshes for the one rejection event. -/
theorem no_single_flight_refresh_witness :
    interleavedDoubleReject upC9W
        { accessToken := "old", refreshCount := 3, fetchCount := 10 } =
      Except.ok { accessToken := "tokB", refreshCount := 5, fetchCount := 14 } :=
  no_single_flight_refresh upC9W
    { accessToken := "old", refreshCount := 3, fetchCount := 10 }
    "tokA" "tokB" rfl rfl rfl rfl

end Part000

/-! ### The single-clip variant (`src/index.js`) -/

namespace IndexJs

theorem le_foldl_pickNewer (cs : List Clip) :
    ∀ c : Clip, c.created_at ≤ (cs.foldl pickNewer c).created_at := by
  induction cs with
  | nil => intro c; exact le_refl _
  | cons d ds ih =>
    intro c
    have hstep : c.created_at ≤ (pickNewer c d).created_at := by
      unfold pickNewer
      by_cases h : c.created_at < d.created_at
      · simp only [h, if_true]
        exact le_of_lt h
      · simp [h]
    exact le_trans hstep (ih (pickNewer c d))

theorem mem_le_foldl_pickNewer (cs : List Clip) :
    ∀ (c x : Clip), x ∈ cs → x.created_at ≤ (cs.foldl pickNewer c).created_at := by
  induction cs with
  | nil =>
    intro c x hx
    exact absurd hx (List.not_mem_nil x)
  | cons d ds ih =>
    intro c x hx
    rcases List.mem_cons.mp hx with h | h
    · subst h
      have hstep : x.created_at ≤ (pickNewer c x).created_at := by
        unfold pickNewer
        by_cases hlt : c.created_at < x.created_at
        · simp [hlt]
        · simp only [hlt, if_false]
          exact le_of_not_lt hlt
      exact le_trans hstep (le_foldl_pickNewer ds (pickNewer c x))
    · exact ih (pickNewer c d) x h

theorem getLatestClip_max {resp : UpstreamResponse} {c : Clip}
    (h : getLatestClip resp = some c) :
    ∀ x ∈ resp.clips, x.created_at ≤ c.created_at := by
  unfold getLatestClip at h
  rcases hu : resp.userId with _ | u
  · rw [hu] at h
    exact absurd h (by simp)
  · rw [hu] at h
    rcases hcl : resp.clips with _ | ⟨a, as⟩
    · rw [hcl] at h
      exact absurd h (by simp)
    · rw [hcl] at h
      have hfold : as.foldl pickNewer a = c := by simpa using h
      intro x hx
      rcases List.mem_cons.mp hx with hxa | hxas
      · subst hxa
        rw [← hfold]
        exact le_foldl_pickNewer as x
      · rw [← hfold]
        exact mem_le_foldl_pickNewer as a x hxas

theorem pollOne_none {resp : UpstreamResponse} {sub : Subscription}
    (hg : getLatestClip resp = none) : pollOne resp sub = (none, sub) := by
  unfold pollOne
  rw [hg]

theorem pollOne_pos {resp : UpstreamResponse} {sub : Subscription} {clip : Clip}
    (hg : getLatestClip resp = some clip) (hc : shouldSend sub clip = true) :
    pollOne resp sub =
      (some clip,
        { sub with
          last_clip_id := some clip.id
          last_clip_created_at := some clip.created_at }) := by
  unfold pollOne
  rw [hg]
  dsimp only
  rw [if_pos hc]

theorem pollOne_neg {resp : UpstreamResponse} {sub : Subscription} {clip : Clip}
    (hg : getLatestClip resp = some clip) (hc : ¬ shouldSend sub clip = true) :
    pollOne resp sub = (none, sub) := by
  unfold pollOne
  rw [hg]
  dsimp only
  rw [if_neg hc]

theorem pollOne_sent_eq_latest {resp : UpstreamResponse} {sub : Subscription}
    {c : Clip} (h : (pollOne resp sub).1 = some c) :
    getLatestClip resp = some c ∧ shouldSend sub c = true := by
  rcases hg : getLatestClip resp with _ | clip
  · rw [pollOne_none hg] at h
    exact absurd h (by simp)
  · by_cases hcond : shouldSend sub clip
    · rw [pollOne_pos hg hcond] at h
      have hc : clip = c := by simpa using h
      subst hc
      exact ⟨rfl, hcond⟩
    · rw [pollOne_neg hg hcond] at h
      exact absurd h (by simp)

/-- C10: the `src/index.js` variant dispatches at most one clip per
subscription per cycle — when a clip is dispatched it is a newest clip of the
lookback window and both watermark fields jump directly to it (first
conjunct); a clip whose `created_at` is at or below the current watermark is
never the dispatched clip (second conjunct), a clip strictly older than some
other clip of the window is never the dispatched clip (third conjunct), and
the watermark never decreases (fourth conjunct) — so once the watermark has
passed an undelivered older clip, that clip is permanently skipped. -/
theorem single_newest_clip_poll :
    (∀ (resp : UpstreamResponse) (sub : Subscription) (c : Clip),
      (pollOne resp sub).1 = some c →
        (∀ x ∈ resp.clips, x.created_at ≤ c.created_at) ∧
        (pollOne resp sub).2.last_clip_id = some c.id ∧
        (pollOne resp sub).2.last_clip_created_at = some c.created_at) ∧
    (∀ (resp : UpstreamResponse) (sub : Subscription) (w : Millis) (x : Clip),
      sub.last_clip_created_at = some w → x.created_at ≤ w →
      (pollOne resp sub).1 ≠ some x) ∧
    (∀ (resp : UpstreamResponse) (sub : Subscription) (x y : Clip),
      x ∈ resp.clips → y ∈ resp.clips → x.created_at < y.created_at →
      (pollOne resp sub).1 ≠ some x) ∧
    (∀ (resp : UpstreamResponse) (sub : Subscription) (w : Millis),
      sub.last_clip_created_at = some w →
      w ≤ (pollOne resp sub).2.last_clip_created_at.getD w) := by
  refine ⟨?_, ?_, ?_, ?_⟩
  · intro resp sub c h
    rcases pollOne_sent_eq_latest h with ⟨hg, hcond⟩
    refine ⟨getLatestClip_max hg, ?_, ?_⟩
    · rw [pollOne_pos hg hcond]
    · rw [pollOne_pos hg hcond]
  · intro resp sub w x hw hle h
    rcases pollOne_sent_eq_latest h with ⟨hg, hcond⟩
    have hall := hcond
    simp only [shouldSend, Bool.and_eq_true] at hall
    replace hall := hall.2
    rw [hw] at hall
    simp only [Option.all, decide_eq_true_eq] at hall
    exact absurd hall (not_lt.mpr hle)
  · intro resp sub x y hx hy hxy h
    rcases pollOne_sent_eq_latest h with ⟨hg, hcond⟩
    have hmax := getLatestClip_max hg y hy
    exact absurd hmax (not_le.mpr hxy)
  · intro resp sub w hw
    rcases hg : getLatestClip resp with _ | clip
    · rw [pollOne_none hg]
      simp [hw]
    · by_cases hcond : shouldSend sub clip
      · rw [pollOne_pos hg hcond]
        have hall := hcond
        simp only [shouldSend, Bool.and_eq_true] at hall
        replace hall := hall.2
        rw [hw] at hall
        simp only [Option.all, decide_eq_true_eq] at hall
        simp only [Option.getD]
        exact le_of_lt hall
      · rw [pollOne_neg hg hcond]
        simp [hw]

/-- The two-clip window of the C10 witness. -/
def respW : UpstreamResponse :=
  { userId := some "u", clips := [mkClip "old" 1, mkClip "new" 2] }

/-- A subscription whose watermark (5) is already past both clips of
`respW`. -/
def subW5 : Subscription :=
  { freshSub "s" "chan" with last_clip_created_at := some 5 }

/-- C10 witness: on the fresh subscription the dispatched clip is `new` and
the watermark jumps to it; `old` is not dispatched although it is also new;
and on a subscription whose watermark is already 5, `new@2` is not dispatched
and the watermark does not decrease. -/
theorem single_newest_clip_poll_witness :
    (pollOne respW (freshSub "s" "chan")).2.last_clip_id = some "new" ∧
    (pollOne respW (freshSub "s" "chan")).2.last_clip_created_at = some 2 ∧
    (pollOne respW (freshSub "s" "chan")).1 ≠ some (mkClip "old" 1) ∧
    (pollOne respW subW5).1 ≠ some (mkClip "new" 2) ∧
    (5 : Millis) ≤ (pollOne respW subW5).2.last_clip_created_at.getD 5 :=
  ⟨(single_newest_clip_poll.1 respW (freshSub "s" "chan") (mkClip "new" 2)
      (by decide)).2.1,
   (single_newest_clip_poll.1 respW (freshSub "s" "chan") (mkClip "new" 2)
      (by decide)).2.2,
   single_newest_clip_poll.2.2.1 respW (freshSub "s" "chan")
      (mkClip "old" 1) (mkClip "new" 2) (by decide) (by decide) (by decide),
   single_newest_clip_poll.2.1 respW subW5 5 (mkClip "new" 2) rfl (by decide),
   single_newest_clip_poll.2.2.2 respW subW5 5 rfl⟩

end IndexJs

end TwitchClipBot
